import Mathlib

/-!
# Verification of `fargatespawner.py`

A shallow embedding, in Lean 4, of the core of the `fargatespawner`
repository: the AWS SigV4 request signer (`_aws_headers`), the ECS task
lifecycle controller (`start` / `poll` / `stop` and its helpers), the
auto-refreshing ECS-role credential provider, and the multi-reader
progress buffer (`AsyncIteratorBuffer`).

Bytes are modelled as `Nat` values below 256, byte strings as `List Nat`,
Python `dict`s of strings as association lists with Python's
insertion-order / overwrite-in-place update semantics, and Python floats
arising from the progress formulas as exact rationals `ℚ`.
SHA-256 and HMAC-SHA-256 (the `hashlib` / `hmac` library calls made by
the source) are implemented concretely, so every signing computation is
executable down to bytes.
-/

/-! ## Bytes, hex, UTF-8 -/

/-- The modulus 2^32 for 32-bit words. -/
def m32 : Nat := 4294967296

/-- Lowercase hex digit, as produced by Python's `hexdigest` / `bytes.hex`. -/
def hexCharLower (n : Nat) : Char :=
  if n < 10 then Char.ofNat (48 + n) else Char.ofNat (87 + n)

/-- Uppercase hex digit, as produced by `urllib.parse.quote` percent-escapes. -/
def hexCharUpper (n : Nat) : Char :=
  if n < 10 then Char.ofNat (48 + n) else Char.ofNat (55 + n)

/-- Lowercase hex string of a byte list (Python `hexdigest()` / `.hex()`). -/
def bytesToHex (bs : List Nat) : String :=
  String.mk (bs.foldr (fun b acc => hexCharLower ((b / 16) % 16) :: hexCharLower (b % 16) :: acc) [])

/-- UTF-8 encoding of one character (Python `str.encode('utf-8')`, per char). -/
def utf8Bytes (c : Char) : List Nat :=
  let n := c.toNat
  if n < 128 then [n]
  else if n < 2048 then [192 + n / 64, 128 + n % 64]
  else if n < 65536 then [224 + n / 4096, 128 + (n / 64) % 64, 128 + n % 64]
  else [240 + n / 262144, 128 + (n / 4096) % 64, 128 + (n / 64) % 64, 128 + n % 64]

/-- UTF-8 bytes of a string (Python `str.encode('utf-8')`). -/
def strBytes (s : String) : List Nat :=
  (s.data.map utf8Bytes).flatten

-- Equality of `Except` results is decidable (used to evaluate concrete
-- runs of the embedded operations).
deriving instance DecidableEq for Except

/-! ## SHA-256 (`hashlib.sha256`) -/

/-- Bitwise XOR of two words. -/
def xorW (a b : Nat) : Nat := a ^^^ b

/-- Bitwise AND of two 32-bit words. -/
def and32 (a b : Nat) : Nat := a &&& b

/-- Bitwise XOR of two 32-bit words. -/
def xor32 (a b : Nat) : Nat := a ^^^ b

/-- Bitwise complement of a 32-bit word, arithmetically. -/
def not32 (x : Nat) : Nat := m32 - 1 - x

/-- Logical right shift of a 32-bit word. -/
def shr32 (n x : Nat) : Nat := x >>> n

/-- Right rotation of a 32-bit word, arithmetically. -/
def rotr32 (n x : Nat) : Nat := x / 2 ^ n + x % 2 ^ n * 2 ^ (32 - n)

def shaCh (x y z : Nat) : Nat := xor32 (and32 x y) (and32 (not32 x) z)

def shaMaj (x y z : Nat) : Nat := xor32 (xor32 (and32 x y) (and32 x z)) (and32 y z)

def bigSigma0 (x : Nat) : Nat := xor32 (xor32 (rotr32 2 x) (rotr32 13 x)) (rotr32 22 x)

def bigSigma1 (x : Nat) : Nat := xor32 (xor32 (rotr32 6 x) (rotr32 11 x)) (rotr32 25 x)

def smallSigma0 (x : Nat) : Nat := xor32 (xor32 (rotr32 7 x) (rotr32 18 x)) (shr32 3 x)

def smallSigma1 (x : Nat) : Nat := xor32 (xor32 (rotr32 17 x) (rotr32 19 x)) (shr32 10 x)

/-- The 64 SHA-256 round constants. -/
def shaK : List Nat :=
  [1116352408, 1899447441, 3049323471, 3921009573, 961987163,
   1508970993, 2453635748, 2870763221, 3624381080, 310598401,
   607225278, 1426881987, 1925078388, 2162078206, 2614888103,
   3248222580, 3835390401, 4022224774, 264347078, 604807628,
   770255983, 1249150122, 1555081692, 1996064986, 2554220882,
   2821834349, 2952996808, 3210313671, 3336571891, 3584528711,
   113926993, 338241895, 666307205, 773529912, 1294757372,
   1396182291, 1695183700, 1986661051, 2177026350, 2456956037,
   2730485921, 2820302411, 3259730800, 3345764771, 3516065817,
   3600352804, 4094571909, 275423344, 430227734, 506948616,
   659060556, 883997877, 958139571, 1322822218, 1537002063,
   1747873779, 1955562222, 2024104815, 2227730452, 2361852424,
   2428436474, 2756734187, 3204031479, 3329325298]

/-- The SHA-256 initial hash state. -/
def shaH0 : List Nat :=
  [1779033703, 3144134277, 1013904242, 2773480762, 1359893119,
   2600822924, 528734635, 1541459225]

/-- Big-endian 8-byte encoding of a bit length. -/
def be8 (n : Nat) : List Nat :=
  [n / 2 ^ 56 % 256, n / 2 ^ 48 % 256, n / 2 ^ 40 % 256, n / 2 ^ 32 % 256,
   n / 2 ^ 24 % 256, n / 2 ^ 16 % 256, n / 2 ^ 8 % 256, n % 256]

/-- Big-endian 4-byte encoding of a 32-bit word. -/
def be4 (w : Nat) : List Nat :=
  [w / 2 ^ 24 % 256, w / 2 ^ 16 % 256, w / 2 ^ 8 % 256, w % 256]

/-- SHA-256 padding: append `0x80`, zero bytes, and the 64-bit bit length. -/
def sha256Pad (msg : List Nat) : List Nat :=
  let len := msg.length
  let zeros := (64 - ((len + 9) % 64)) % 64
  msg ++ [128] ++ List.replicate zeros 0 ++ be8 (8 * len)

/-- Split a byte list into 64-byte blocks; `fuel` bounds the recursion depth
and is never exhausted when it starts at the list length. -/
def chunks64Fuel : Nat → List Nat → List (List Nat)
  | _, [] => []
  | 0, _ :: _ => []
  | fuel + 1, b :: bs => ((b :: bs).take 64) :: chunks64Fuel fuel ((b :: bs).drop 64)

/-- Split a byte list into 64-byte blocks. -/
def chunks64 (l : List Nat) : List (List Nat) := chunks64Fuel l.length l

/-- The 16 initial 32-bit message-schedule words of one block (big-endian). -/
def blockWords (block : List Nat) : List Nat :=
  (List.range 16).map (fun i =>
    block.getD (4 * i) 0 * 16777216 + block.getD (4 * i + 1) 0 * 65536 +
    block.getD (4 * i + 2) 0 * 256 + block.getD (4 * i + 3) 0)

/-- The message-schedule recurrence on a sliding window of the last 16
words: produces the next `t` schedule words. -/
def scheduleWindow (t : Nat) :
    Nat → Nat → Nat → Nat → Nat → Nat → Nat → Nat → Nat → Nat → Nat → Nat →
    Nat → Nat → Nat → Nat → List Nat :=
  Nat.rec
    (motive := fun _ => Nat → Nat → Nat → Nat → Nat → Nat → Nat → Nat → Nat →
      Nat → Nat → Nat → Nat → Nat → Nat → Nat → List Nat)
    (fun _ _ _ _ _ _ _ _ _ _ _ _ _ _ _ _ => [])
    (fun _ ih w0 w1 w2 w3 w4 w5 w6 w7 w8 w9 w10 w11 w12 w13 w14 w15 =>
      let w16 := (smallSigma1 w14 + w9 + smallSigma0 w1 + w0) % m32
      w16 :: ih w1 w2 w3 w4 w5 w6 w7 w8 w9 w10 w11 w12 w13 w14 w15 w16)
    t

/-- Extend the 16 schedule words to 64. -/
def shaSchedule (ws : List Nat) : List Nat :=
  ws ++ scheduleWindow 48 (ws.getD 0 0) (ws.getD 1 0) (ws.getD 2 0) (ws.getD 3 0)
    (ws.getD 4 0) (ws.getD 5 0) (ws.getD 6 0) (ws.getD 7 0) (ws.getD 8 0) (ws.getD 9 0)
    (ws.getD 10 0) (ws.getD 11 0) (ws.getD 12 0) (ws.getD 13 0) (ws.getD 14 0)
    (ws.getD 15 0)

/-- The 64 SHA-256 rounds over the working variables `a..h`; each element of
`kws` is a round constant plus the corresponding schedule word. -/
def shaRounds (kws : List Nat) :
    Nat → Nat → Nat → Nat → Nat → Nat → Nat → Nat → List Nat :=
  List.rec
    (motive := fun _ => Nat → Nat → Nat → Nat → Nat → Nat → Nat → Nat → List Nat)
    (fun a b c d e f g h => [a, b, c, d, e, f, g, h])
    (fun kw _ ih a b c d e f g h =>
      let t1 := (h + bigSigma1 e + shaCh e f g + kw) % m32
      let t2 := (bigSigma0 a + shaMaj a b c) % m32
      ih ((t1 + t2) % m32) a b c ((d + t1) % m32) e f g)
    kws

/-- SHA-256 compression of one 64-byte block into the hash state. -/
def shaCompress (hs : List Nat) (block : List Nat) : List Nat :=
  let ws := shaSchedule (blockWords block)
  let kws := (ws.zip shaK).map (fun p => p.1 + p.2)
  let st := shaRounds kws (hs.getD 0 0) (hs.getD 1 0) (hs.getD 2 0) (hs.getD 3 0)
    (hs.getD 4 0) (hs.getD 5 0) (hs.getD 6 0) (hs.getD 7 0)
  (List.range 8).map (fun i => (hs.getD i 0 + st.getD i 0) % m32)

/-- SHA-256 of a byte list, as a 32-byte list (`hashlib.sha256(msg).digest()`). -/
def sha256 (msg : List Nat) : List Nat :=
  (((chunks64 (sha256Pad msg)).foldl shaCompress shaH0).map be4).flatten

/-- HMAC-SHA-256 (`hmac.new(key, msg, hashlib.sha256).digest()`), block size 64. -/
def hmacSha256 (key msg : List Nat) : List Nat :=
  let key1 := if 64 < key.length then sha256 key else key
  let key2 := key1 ++ List.replicate (64 - key1.length) 0
  sha256 ((key2.map (fun b => xorW b 92)) ++ sha256 ((key2.map (fun b => xorW b 54)) ++ msg))

/-! ## Python string / dict helpers -/

/-- Lexicographic comparison of char lists by code point, as Python compares `str`. -/
def charListLe : List Char → List Char → Bool
  | [], _ => true
  | _ :: _, [] => false
  | a :: as, b :: bs => if a = b then charListLe as bs else decide (a.toNat < b.toNat)

/-- Python `str` ≤ (code-point lexicographic). -/
def strLeB (a b : String) : Bool := charListLe a.data b.data

/-- Stable insertion into a sorted list. -/
def insertSorted (x : String) : List String → List String
  | [] => [x]
  | y :: ys => if strLeB x y then x :: y :: ys else y :: insertSorted x ys

/-- Python `sorted` on strings (stable, code-point lexicographic). -/
def sortStrings (l : List String) : List String := l.foldr insertSorted []

/-- Python `str.lower()` (ASCII; header names in the source are ASCII). -/
def pyLower (s : String) : String := String.mk (s.data.map Char.toLower)

/-- Python `str.upper()` (ASCII). -/
def pyUpper (s : String) : String := String.mk (s.data.map Char.toUpper)

/-- A Python `dict` with string keys and values: an insertion-ordered
association list with no duplicate keys. -/
abbrev PyDict : Type := List (String × String)

/-- Python `d[k] = v` / `{**d, k: v}`: overwrite in place or append. -/
def dictSet (d : PyDict) (k v : String) : PyDict :=
  if (List.any d (fun p => p.1 == k)) then
    List.map (fun p => if p.1 == k then (k, v) else p) d
  else d ++ [(k, v)]

/-- Python `d[k]` with a default. -/
def dictGetD (d : PyDict) (k dflt : String) : String :=
  match List.find? (fun p => p.1 == k) d with
  | some p => p.2
  | none => dflt

/-- The keys of a dict in insertion order. -/
def dictKeys (d : PyDict) : List String := List.map (fun p => p.1) d

/-- Join a list of strings with a separator (Python `sep.join`). -/
def joinSep (sep : String) : List String → String
  | [] => ""
  | [x] => x
  | x :: y :: rest => x ++ sep ++ joinSep sep (y :: rest)

/-- Concatenate a list of strings (Python `''.join`). -/
def concatAll (l : List String) : String := l.foldr (fun a b => a ++ b) ""

/-- Bytes that `urllib.parse.quote` never escapes: ASCII letters, digits,
and `_`, `.`, `-`, `~`. -/
def alwaysSafeByte (b : Nat) : Bool :=
  (65 ≤ b && b ≤ 90) || (97 ≤ b && b ≤ 122) || (48 ≤ b && b ≤ 57) ||
  b == 95 || b == 46 || b == 45 || b == 126

/-- Python `urllib.parse.quote(s, safe=...)`: percent-encode every UTF-8 byte not in
the always-safe set and not in `safe`, with uppercase hex. -/
def pyQuote (safe : List Nat) (s : String) : String :=
  String.mk ((strBytes s).foldr
    (fun b acc =>
      if alwaysSafeByte b || safe.contains b then Char.ofNat b :: acc
      else '%' :: hexCharUpper ((b / 16) % 16) :: hexCharUpper (b % 16) :: acc)
    [])

/-! ## Datetimes (`datetime.datetime`) -/

/-- A `datetime.datetime` value, to second precision (the source formats and
compares only down to seconds). -/
structure PyDatetime where
  year : Nat
  month : Nat
  day : Nat
  hour : Nat
  minute : Nat
  second : Nat
deriving DecidableEq, Repr

/-- Python `datetime` `<`: lexicographic on the components. -/
def dtLt (a b : PyDatetime) : Bool :=
  if a.year ≠ b.year then decide (a.year < b.year)
  else if a.month ≠ b.month then decide (a.month < b.month)
  else if a.day ≠ b.day then decide (a.day < b.day)
  else if a.hour ≠ b.hour then decide (a.hour < b.hour)
  else if a.minute ≠ b.minute then decide (a.minute < b.minute)
  else decide (a.second < b.second)

/-- Zero-pad a number to two digits (`strftime` field). -/
def pad2 (n : Nat) : String := if n < 10 then "0" ++ toString n else toString n

/-- Zero-pad a number to four digits (`strftime` year field). -/
def pad4 (n : Nat) : String :=
  if n < 10 then "000" ++ toString n
  else if n < 100 then "00" ++ toString n
  else if n < 1000 then "0" ++ toString n
  else toString n

/-- Python `now.strftime('%Y%m%dT%H%M%SZ')`. -/
def amzDateOf (dt : PyDatetime) : String :=
  pad4 dt.year ++ pad2 dt.month ++ pad2 dt.day ++ "T" ++
  pad2 dt.hour ++ pad2 dt.minute ++ pad2 dt.second ++ "Z"

/-- Python `now.strftime('%Y%m%d')`. -/
def dateStampOf (dt : PyDatetime) : String :=
  pad4 dt.year ++ pad2 dt.month ++ pad2 dt.day

/-! ## The signer: `_aws_headers` -/

/-- Lower-case and trim the pre-auth header names, trim the values
(the `headers_lower` comprehension in `_aws_headers`). -/
def headersLowerOf (preAuthHeaders : PyDict) : PyDict :=
  preAuthHeaders.foldl (fun d p => dictSet d (pyLower p.1).trim p.2.trim) []

/-- Shallow embedding of `_aws_headers` from `fargatespawner.py`.  The
`utcnow()` call is the only impurity of the source function and is passed in
as the `now` argument; everything else is translated line for line. -/
def awsHeaders (service accessKeyId secretAccessKey region host method path : String)
    (query : PyDict) (preAuthHeaders : PyDict) (payload : List Nat)
    (now : PyDatetime) : PyDict :=
  let algorithm := "AWS4-HMAC-SHA256"
  let amzdate := amzDateOf now
  let datestamp := dateStampOf now
  let credentialScope := datestamp ++ "/" ++ region ++ "/" ++ service ++ "/aws4_request"
  let headersLower := headersLowerOf preAuthHeaders
  let requiredHeaders := ["host", "x-amz-content-sha256", "x-amz-date"]
  let signedHeaderKeys := sortStrings (dictKeys headersLower ++ requiredHeaders)
  let signedHeaders := joinSep ";" signedHeaderKeys
  let payloadHash := bytesToHex (sha256 payload)
  let signature :=
    let canonicalRequest :=
      let headerValues :=
        dictSet (dictSet (dictSet headersLower "host" host)
          "x-amz-content-sha256" payloadHash) "x-amz-date" amzdate
      let canonicalUri := pyQuote [47, 126] path
      let queryKeys := sortStrings (dictKeys query)
      let canonicalQuerystring := joinSep "&"
        (queryKeys.map (fun key =>
          pyQuote [126] key ++ "=" ++ pyQuote [126] (dictGetD query key "")))
      let canonicalHeaders := concatAll
        (signedHeaderKeys.map (fun k => k ++ ":" ++ dictGetD headerValues k "" ++ "\n"))
      method ++ "\n" ++ canonicalUri ++ "\n" ++ canonicalQuerystring ++ "\n" ++
        canonicalHeaders ++ "\n" ++ signedHeaders ++ "\n" ++ payloadHash
    let sign := fun (key : List Nat) (msg : String) => hmacSha256 key (strBytes msg)
    let stringToSign :=
      algorithm ++ "\n" ++ amzdate ++ "\n" ++ credentialScope ++ "\n" ++
        bytesToHex (sha256 (strBytes canonicalRequest))
    let dateKey := sign (strBytes ("AWS4" ++ secretAccessKey)) datestamp
    let regionKey := sign dateKey region
    let serviceKey := sign regionKey service
    let requestKey := sign serviceKey "aws4_request"
    bytesToHex (sign requestKey stringToSign)
  dictSet (dictSet (dictSet preAuthHeaders "x-amz-date" amzdate)
    "x-amz-content-sha256" payloadHash)
    "Authorization"
    (algorithm ++ " Credential=" ++ accessKeyId ++ "/" ++ credentialScope ++
      ", SignedHeaders=" ++ signedHeaders ++ ", Signature=" ++ signature)

/-! ## Spec-side signer definitions

These follow the specification's own wording for the signing algorithm, to
be compared against the source embedding `awsHeaders`.  They are
parameterised on `methodUsed`, the method string that enters the canonical
request: the spec prescribes the uppercased method, while the source uses
the method verbatim. -/

/-- The sorted signed-header names: lower-cased trimmed pre-auth names
merged with the three required names, sorted. -/
def specSignedHeaderNames (preAuthHeaders : PyDict) : List String :=
  sortStrings (dictKeys (headersLowerOf preAuthHeaders) ++
    ["host", "x-amz-content-sha256", "x-amz-date"])

/-- The canonical request per the spec: method line, URI-encoded path keeping
`/` and `~`, key-sorted URI-encoded query pairs (empty string for an empty
query), the merged-and-sorted `name:value` header lines, the signed-header
list, and the payload hash. -/
def specCanonicalRequest (methodUsed path : String) (query preAuthHeaders : PyDict)
    (host payloadHash amzdate : String) : String :=
  let names := specSignedHeaderNames preAuthHeaders
  let merged := dictSet (dictSet (dictSet (headersLowerOf preAuthHeaders) "host" host)
    "x-amz-content-sha256" payloadHash) "x-amz-date" amzdate
  methodUsed ++ "\n" ++ pyQuote [47, 126] path ++ "\n" ++
    joinSep "&" ((sortStrings (dictKeys query)).map (fun k =>
      pyQuote [126] k ++ "=" ++ pyQuote [126] (dictGetD query k ""))) ++ "\n" ++
    concatAll (names.map (fun k => k ++ ":" ++ dictGetD merged k "" ++ "\n")) ++ "\n" ++
    joinSep ";" names ++ "\n" ++ payloadHash

/-- The signing key: four chained HMAC-SHA-256 steps over date, region,
service, and `aws4_request`, seeded from the secret key (with the standard
`AWS4` prefix of the vendor scheme). -/
def specSigningKey (secretAccessKey datestamp region service : String) : List Nat :=
  hmacSha256
    (hmacSha256
      (hmacSha256
        (hmacSha256 (strBytes ("AWS4" ++ secretAccessKey)) (strBytes datestamp))
        (strBytes region))
      (strBytes service))
    (strBytes "aws4_request")

/-- The final signature: HMAC of the string-to-sign under the derived key. -/
def specSignature (service secretAccessKey region host methodUsed path : String)
    (query preAuthHeaders : PyDict) (payload : List Nat) (now : PyDatetime) : String :=
  let amzdate := amzDateOf now
  let datestamp := dateStampOf now
  let scope := datestamp ++ "/" ++ region ++ "/" ++ service ++ "/aws4_request"
  let payloadHash := bytesToHex (sha256 payload)
  let stringToSign := "AWS4-HMAC-SHA256" ++ "\n" ++ amzdate ++ "\n" ++ scope ++ "\n" ++
    bytesToHex (sha256 (strBytes
      (specCanonicalRequest methodUsed path query preAuthHeaders host payloadHash amzdate)))
  bytesToHex (hmacSha256 (specSigningKey secretAccessKey datestamp region service)
    (strBytes stringToSign))

/-- The returned headers per the spec: the pre-auth headers plus
`x-amz-date`, `x-amz-content-sha256` (hex SHA-256 of the body), and the
`Authorization` header, built around `methodUsed`. -/
def specAwsHeadersCore (service accessKeyId secretAccessKey region host methodUsed path : String)
    (query preAuthHeaders : PyDict) (payload : List Nat) (now : PyDatetime) : PyDict :=
  let amzdate := amzDateOf now
  let datestamp := dateStampOf now
  let scope := datestamp ++ "/" ++ region ++ "/" ++ service ++ "/aws4_request"
  let payloadHash := bytesToHex (sha256 payload)
  dictSet (dictSet (dictSet preAuthHeaders "x-amz-date" amzdate)
    "x-amz-content-sha256" payloadHash)
    "Authorization"
    ("AWS4-HMAC-SHA256 Credential=" ++ accessKeyId ++ "/" ++ scope ++
      ", SignedHeaders=" ++ joinSep ";" (specSignedHeaderNames preAuthHeaders) ++
      ", Signature=" ++
      specSignature service secretAccessKey region host methodUsed path
        query preAuthHeaders payload now)

/-- The claim's signer: the canonical request is built with the uppercased
method, exactly as the spec sentence states. -/
def specAwsHeaders (service accessKeyId secretAccessKey region host method path : String)
    (query preAuthHeaders : PyDict) (payload : List Nat) (now : PyDatetime) : PyDict :=
  specAwsHeadersCore service accessKeyId secretAccessKey region host (pyUpper method) path
    query preAuthHeaders payload now

/-! ## Task lifecycle data model -/

/-- One progress event written to the broadcaster: `{'progress': p}` with an
optional `'message'`.  The Python float progress values all arise from the
exact formulas `1 + n/50` and `2 + n/timeout * 98`, modelled as rationals. -/
structure ProgressEvent where
  progress : ℚ
  message : Option String
deriving DecidableEq, Repr

/-- One entry of a task's `attachments` list: its `details` as
`(name, value)` pairs. -/
structure TaskAttachment where
  details : List (String × String)
deriving DecidableEq, Repr

/-- One task object of a DescribeTasks response. -/
structure EcsTask where
  lastStatus : String
  attachments : Option (List TaskAttachment)
deriving DecidableEq, Repr

/-- A DescribeTasks response body: the task may be keyed under the plural
`tasks` list, under the singular `task` field, or absent entirely
(`none` models an absent key). -/
structure DescribeTasksResponse where
  tasks : Option (List EcsTask)
  task : Option EcsTask
deriving DecidableEq, Repr

/-- Shallow embedding of `_describe_task`: first element of a present,
non-empty `tasks` list, else the `task` field if present, else nothing. -/
def describeTask (r : DescribeTasksResponse) : Option EcsTask :=
  match r.tasks with
  | some (t :: _) => some t
  | _ => r.task

/-- Shallow embedding of `_get_task_status`: the task's `lastStatus`, or the
empty string when no task was returned. -/
def getTaskStatus (r : DescribeTasksResponse) : String :=
  match describeTask r with
  | some t => t.lastStatus
  | none => ""

/-- Shallow embedding of `_get_task_ip`: the first `privateIPv4Address`
detail of the first attachment, or the empty string. -/
def getTaskIp (r : DescribeTasksResponse) : String :=
  match describeTask r with
  | some t =>
    match t.attachments with
    | some (att :: _) =>
      match att.details.filterMap
          (fun p => if p.1 == "privateIPv4Address" then some p.2 else none) with
      | v :: _ => v
      | [] => ""
    | _ => ""
  | none => ""

/-- The tuple `ALLOWED_STATUSES` from the source. -/
def ALLOWED_STATUSES : List String := ["", "PROVISIONING", "PENDING", "RUNNING"]

/-- Shallow embedding of `FargateSpawner.poll`.  `resp` is the DescribeTasks
response the remote API would return for the current task; it is only
consulted on the branch where the source actually issues that request. -/
def pollModel (callingRunTask : Bool) (taskArn : String)
    (resp : DescribeTasksResponse) : Option Nat :=
  if callingRunTask then none
  else if taskArn == "" then some 0
  else if ALLOWED_STATUSES.contains (getTaskStatus resp) then none
  else some 1

/-! ## `stop` and `_ensure_stopped_task` -/

/-- Is `n` a prefix of `h`? (Byte-wise, on the char lists.) -/
def listStartsWith : List Char → List Char → Bool
  | [], _ => true
  | _ :: _, [] => false
  | a :: as, b :: bs => a == b && listStartsWith as bs

/-- Is `n` a contiguous substring of `h`? (Python `in` on `bytes`/`str`.) -/
def listContainsSub (n : List Char) : List Char → Bool
  | [] => listStartsWith n []
  | b :: bs => listStartsWith n (b :: bs) || listContainsSub n bs

/-- Python `needle in hay` for strings. -/
def containsSub (needle hay : String) : Bool := listContainsSub needle.data hay.data

/-- The outcome of the StopTask API call: a success, or an `HTTPError`
carrying the raw response body. -/
inductive StopTaskResult where
  | success
  | httpError (body : String)
deriving DecidableEq, Repr

/-- Shallow embedding of `_ensure_stopped_task`: swallow an `HTTPError`
whose body contains `task was not found`, re-raise any other. -/
def ensureStoppedTask (resp : StopTaskResult) : Except String Unit :=
  match resp with
  | .success => .ok ()
  | .httpError body =>
    if containsSub "task was not found" body then .ok () else .error body

/-- Shallow embedding of `FargateSpawner.stop`: returns the propagated error
(if any) together with the number of StopTask API calls issued. -/
def stopModel (taskArn : String) (resp : StopTaskResult) : Except String Unit × Nat :=
  if taskArn == "" then (.ok (), 0)
  else (ensureStoppedTask resp, 1)

/-! ## The polling loops and `start` -/

/-- The message of the network-attachment timeout exception. -/
def timeoutIpMsg (taskArn : String) : String :=
  "Task " ++ taskArn ++ " took too long to find IP address"

/-- The message of the running-state timeout exception. -/
def timeoutRunningMsg (taskArn : String) : String :=
  "Task " ++ taskArn ++ " took too long to become running"

/-- The message of the disallowed-status exception. -/
def badStatusMsg (taskArn status : String) : String :=
  "Task " ++ taskArn ++ " is " ++ status

/-- Shallow embedding of the network-attachment polling loop of `start`
(`while task_ip == ''`).  `describeResp n` is the DescribeTasks response
returned by the remote API on the `n`-th poll.  Returns the found IP or the
raised exception message, together with the number of `_get_task_ip` calls
made and the progress events written. -/
def ipLoopFuel (taskArn : String) (describeResp : Nat → DescribeTasksResponse)
    (maxPolls : Nat) : Nat → Nat → Except String String × Nat × List ProgressEvent
  | fuel, numPolls =>
    if maxPolls ≤ numPolls + 1 then (.error (timeoutIpMsg taskArn), 0, [])
    else
      match fuel with
      | 0 => (.error (timeoutIpMsg taskArn), 0, [])
      | fuel + 1 =>
        let n := numPolls + 1
        let taskIp := getTaskIp (describeResp n)
        let ev : ProgressEvent := ⟨1 + (n : ℚ) / (maxPolls : ℚ), none⟩
        if taskIp == "" then
          let rest := ipLoopFuel taskArn describeResp maxPolls fuel n
          (rest.1, rest.2.1 + 1, ev :: rest.2.2)
        else (.ok taskIp, 1, [ev])

/-- The loop itself: the fuel `maxPolls - numPolls` exactly tracks the
remaining iterations, so the fuel-exhausted branch is unreachable. -/
def ipLoop (taskArn : String) (describeResp : Nat → DescribeTasksResponse)
    (maxPolls numPolls : Nat) : Except String String × Nat × List ProgressEvent :=
  ipLoopFuel taskArn describeResp maxPolls (maxPolls - numPolls) numPolls

/-- Shallow embedding of the running-state polling loop of `start`
(`while status != 'RUNNING'`), with the bound `max_polls = start_timeout`. -/
def statusLoopFuel (taskArn : String) (describeResp : Nat → DescribeTasksResponse)
    (maxPolls : Nat) : Nat → Nat → Except String Unit × Nat × List ProgressEvent
  | fuel, numPolls =>
    if maxPolls ≤ numPolls + 1 then (.error (timeoutRunningMsg taskArn), 0, [])
    else
      match fuel with
      | 0 => (.error (timeoutRunningMsg taskArn), 0, [])
      | fuel + 1 =>
        let n := numPolls + 1
        let status := getTaskStatus (describeResp n)
        if (ALLOWED_STATUSES.contains status) = false then
          (.error (badStatusMsg taskArn status), 1, [])
        else
          let ev : ProgressEvent := ⟨2 + (n : ℚ) / (maxPolls : ℚ) * 98, none⟩
          if status == "RUNNING" then (.ok (), 1, [ev])
          else
            let rest := statusLoopFuel taskArn describeResp maxPolls fuel n
            (rest.1, rest.2.1 + 1, ev :: rest.2.2)

/-- The loop itself: the fuel `maxPolls - numPolls` exactly tracks the
remaining iterations, so the fuel-exhausted branch is unreachable. -/
def statusLoop (taskArn : String) (describeResp : Nat → DescribeTasksResponse)
    (maxPolls numPolls : Nat) : Except String Unit × Nat × List ProgressEvent :=
  statusLoopFuel taskArn describeResp maxPolls (maxPolls - numPolls) numPolls

/-- The spawner state fields that `start` / `poll` / `stop` touch.
`progress` is the list of events written to the progress buffer and
`progressClosed` records whether `close()` was called on it. -/
structure SpawnerState where
  taskArn : String
  callingRunTask : Bool
  progress : List ProgressEvent
  progressClosed : Bool
deriving DecidableEq, Repr

/-- The remote API's behaviour during one `start` run: the task ARN
returned by RunTask (`none` models a raising RunTask call), and the
DescribeTasks responses served to the two polling loops, by poll number. -/
structure EcsApiBehavior where
  runTaskArn : Option String
  ipResp : Nat → DescribeTasksResponse
  statusResp : Nat → DescribeTasksResponse

/-- The spawner configuration values `start` reads. -/
structure StartConfig where
  startTimeout : Nat
  notebookScheme : String
  notebookPort : Nat

/-- The observable outcome of one `start` run: the returned URL or raised
exception message, the final state, and the DescribeTasks poll counts of the
two phases. -/
structure StartOutcome where
  result : Except String String
  state : SpawnerState
  ipPolls : Nat
  statusPolls : Nat

/-- Shallow embedding of `FargateSpawner.start`: write the 0.5 event, set
the in-flight flag, call RunTask (resetting the flag in `finally`), record
the ARN, run the two polling loops with bounds 50 and `start_timeout`,
then write the final 100 event, close the buffer, and return the URL. -/
def startModel (beh : EcsApiBehavior) (cfg : StartConfig) (st : SpawnerState) : StartOutcome :=
  let ev0 : ProgressEvent := ⟨1/2, some "Starting server..."⟩
  match beh.runTaskArn with
  | none =>
    { result := .error "RunTask failed"
      state := { st with callingRunTask := false, progress := st.progress ++ [ev0] }
      ipPolls := 0
      statusPolls := 0 }
  | some taskArn =>
    let st1 : SpawnerState :=
      { st with callingRunTask := false, taskArn := taskArn,
                progress := st.progress ++ [ev0, ⟨1, none⟩] }
    let ipOut := ipLoop taskArn beh.ipResp 50 0
    match ipOut.1 with
    | .error msg =>
      { result := .error msg
        state := { st1 with progress := st1.progress ++ ipOut.2.2 }
        ipPolls := ipOut.2.1
        statusPolls := 0 }
    | .ok taskIp =>
      let st2 : SpawnerState :=
        { st1 with progress := st1.progress ++ ipOut.2.2 ++ [⟨2, none⟩] }
      let stOut := statusLoop taskArn beh.statusResp cfg.startTimeout 0
      match stOut.1 with
      | .error msg =>
        { result := .error msg
          state := { st2 with progress := st2.progress ++ stOut.2.2 }
          ipPolls := ipOut.2.1
          statusPolls := stOut.2.1 }
      | .ok _ =>
        { result := .ok (cfg.notebookScheme ++ "://" ++ taskIp ++ ":" ++
            toString cfg.notebookPort)
          state := { st2 with
            progress := st2.progress ++ stOut.2.2 ++ [⟨100, some "Server started"⟩],
            progressClosed := true }
          ipPolls := ipOut.2.1
          statusPolls := stOut.2.1 }

/-! ## The progress broadcaster: `AsyncIteratorBuffer` -/

/-- One future of the buffer's `futures` list: unresolved, resolved with an
item (`set_result`), or resolved with `StopAsyncIteration`
(`set_exception`). -/
inductive BufferSlot (α : Type) where
  | pending
  | item (a : α)
  | stopMarker
deriving DecidableEq, Repr

/-- Shallow embedding of `AsyncIteratorBuffer`: the list of futures. -/
structure IterBuffer (α : Type) where
  futures : List (BufferSlot α)
deriving DecidableEq, Repr

/-- The constructor: a single unresolved future. -/
def bufferInit {α : Type} : IterBuffer α := ⟨[.pending]⟩

/-- Method `write(item)`: resolve the last future with the item, append a fresh
unresolved future. -/
def bufferWrite {α : Type} (b : IterBuffer α) (x : α) : IterBuffer α :=
  ⟨b.futures.dropLast ++ [.item x, .pending]⟩

/-- Method `close()`: resolve the last future with `StopAsyncIteration`. -/
def bufferClose {α : Type} (b : IterBuffer α) : IterBuffer α :=
  ⟨b.futures.dropLast ++ [.stopMarker]⟩

/-- What an iterator beginning at these slots observes: `some events` if it
reaches a stop marker after `events` (clean termination), `none` if it would
suspend forever on an unresolved future or run off the end of the list. -/
def drainSlots {α : Type} : List (BufferSlot α) → Option (List α)
  | [] => none
  | .pending :: _ => none
  | .stopMarker :: _ => some []
  | .item a :: rest => (drainSlots rest).map (fun l => a :: l)

/-- Calling `__aiter__` then iterating fully: every subscriber starts at cursor 0,
regardless of when it subscribed. -/
def subscriberView {α : Type} (b : IterBuffer α) : Option (List α) :=
  drainSlots b.futures

/-! ## The auto-refreshing credential provider -/

/-- The `AwsCreds` named tuple. -/
structure AwsCreds where
  accessKeyId : String
  secretAccessKey : String
  preAuthHeaders : PyDict
deriving DecidableEq, Repr

/-- The mutable trait state of `FargateSpawnerECSRoleAuthentication`. -/
structure EcsRoleAuthState where
  accessKeyId : String
  secretAccessKey : String
  preAuthHeaders : PyDict
  expiration : PyDatetime
deriving DecidableEq, Repr

/-- The `Datetime` trait default, `datetime.datetime(1900, 1, 1)`: the
always-already-expired sentinel. -/
def dtSentinel : PyDatetime := ⟨1900, 1, 1, 0, 0, 0⟩

/-- The initial trait state: empty strings, empty headers, the sentinel. -/
def ecsRoleAuthInit : EcsRoleAuthState := ⟨"", "", [], dtSentinel⟩

/-- The parsed JSON body served by the metadata endpoint.  `expiration` is
the `Expiration` field after the source's fixed-format `strptime`
(`%Y-%m-%dT%H:%M:%SZ`) parse. -/
structure FetchedCreds where
  accessKeyId : String
  secretAccessKey : String
  token : String
  expiration : PyDatetime
deriving DecidableEq, Repr

/-- Shallow embedding of `FargateSpawnerECSRoleAuthentication.get_credentials`:
if `now > expiration`, fetch (`fetched` is the body the endpoint would
serve), replace the cached state, and return it; otherwise return the cache
untouched.  The third component counts the HTTP fetches performed. -/
def getCredentialsModel (auth : EcsRoleAuthState) (now : PyDatetime)
    (fetched : FetchedCreds) : AwsCreds × EcsRoleAuthState × Nat :=
  if dtLt auth.expiration now then
    let auth2 : EcsRoleAuthState :=
      { accessKeyId := fetched.accessKeyId
        secretAccessKey := fetched.secretAccessKey
        preAuthHeaders := [("x-amz-security-token", fetched.token)]
        expiration := fetched.expiration }
    (⟨auth2.accessKeyId, auth2.secretAccessKey, auth2.preAuthHeaders⟩, auth2, 1)
  else
    (⟨auth.accessKeyId, auth.secretAccessKey, auth.preAuthHeaders⟩, auth, 0)

/-! # Theorems -/

/-! ## General helper lemmas -/

/-- Lemma: `List.contains` agrees with membership for the allowed-status set. -/
theorem allowedContainsIff (s : String) :
    ALLOWED_STATUSES.contains s = true ↔ s ∈ ALLOWED_STATUSES := by
  simp [List.contains_iff_exists_mem_beq]

/-- Writing a list of events, from a buffer in the canonical shape, appends
resolved item futures before the trailing pending future. -/
theorem bufferWrites_futures {α : Type} (ws : List α) :
    ∀ l : List (BufferSlot α),
      (ws.foldl bufferWrite ⟨l ++ [.pending]⟩).futures = l ++ ws.map .item ++ [.pending] := by
  induction ws with
  | nil => intro l; simp
  | cons w ws ih =>
    intro l
    have hstep : bufferWrite ⟨l ++ [BufferSlot.pending]⟩ w =
        ⟨(l ++ [.item w]) ++ [.pending]⟩ := by
      simp [bufferWrite, List.dropLast_concat]
    simp only [List.foldl_cons, hstep, ih, List.map_cons]
    simp

/-- Draining item slots followed by a stop marker yields exactly the items. -/
theorem drainSlots_items {α : Type} (ws : List α) :
    drainSlots (ws.map .item ++ [.stopMarker]) = some ws := by
  induction ws with
  | nil => simp [drainSlots]
  | cons w ws ih => simp [drainSlots, ih]

/-- Draining item slots followed by a pending future suspends. -/
theorem drainSlots_pending {α : Type} (ws : List α) :
    drainSlots (ws.map .item ++ [.pending]) = none := by
  induction ws with
  | nil => simp [drainSlots]
  | cons w ws ih => simp [drainSlots, ih]

/-- If every poll sees no IP, the network loop times out with the task id in
the message after exactly the remaining number of pre-bound iterations. -/
theorem ipLoopFuel_allEmpty (taskArn : String) (f : Nat → DescribeTasksResponse)
    (maxPolls : Nat) (h : ∀ n, getTaskIp (f n) = "") :
    ∀ fuel numPolls, maxPolls - numPolls ≤ fuel →
      (ipLoopFuel taskArn f maxPolls fuel numPolls).1 = .error (timeoutIpMsg taskArn) ∧
      (ipLoopFuel taskArn f maxPolls fuel numPolls).2.1 = maxPolls - (numPolls + 1) := by
  intro fuel
  induction fuel with
  | zero =>
    intro k hk
    have hle : maxPolls ≤ k + 1 := by omega
    rw [ipLoopFuel]
    simp [hle]
  | succ m ih =>
    intro k hk
    rw [ipLoopFuel]
    by_cases hle : maxPolls ≤ k + 1
    · simp [hle]
    · have hip : (getTaskIp (f (k + 1)) == "") = true := by
        rw [beq_iff_eq]; exact h (k + 1)
      have hrec := ih (k + 1) (by omega)
      simp [hle, hip, hrec.1, hrec.2]
      omega

/-- The network loop as called by `start`: Timeout naming the task id, after
the bound minus one polls. -/
theorem ipLoop_allEmpty (taskArn : String) (f : Nat → DescribeTasksResponse)
    (maxPolls : Nat) (h : ∀ n, getTaskIp (f n) = "") :
    (ipLoop taskArn f maxPolls 0).1 = .error (timeoutIpMsg taskArn) ∧
    (ipLoop taskArn f maxPolls 0).2.1 = maxPolls - 1 :=
  ipLoopFuel_allEmpty taskArn f maxPolls h (maxPolls - 0) 0 (Nat.le_refl _)

/-- If every poll sees an allowed, non-`RUNNING` status, the running loop
times out with the task id in the message after exactly the remaining number
of pre-bound iterations. -/
theorem statusLoopFuel_allowedNotRunning (taskArn : String)
    (g : Nat → DescribeTasksResponse) (maxPolls : Nat)
    (h : ∀ n, ALLOWED_STATUSES.contains (getTaskStatus (g n)) = true ∧
      getTaskStatus (g n) ≠ "RUNNING") :
    ∀ fuel numPolls, maxPolls - numPolls ≤ fuel →
      (statusLoopFuel taskArn g maxPolls fuel numPolls).1 =
        .error (timeoutRunningMsg taskArn) ∧
      (statusLoopFuel taskArn g maxPolls fuel numPolls).2.1 =
        maxPolls - (numPolls + 1) := by
  intro fuel
  induction fuel with
  | zero =>
    intro k hk
    have hle : maxPolls ≤ k + 1 := by omega
    rw [statusLoopFuel]
    simp [hle]
  | succ m ih =>
    intro k hk
    rw [statusLoopFuel]
    by_cases hle : maxPolls ≤ k + 1
    · simp [hle]
    · have hall := (h (k + 1)).1
      have hmem : getTaskStatus (g (k + 1)) ∈ ALLOWED_STATUSES :=
        (allowedContainsIff _).mp hall
      have hnr : (getTaskStatus (g (k + 1)) == "RUNNING") = false := by
        rw [beq_eq_false_iff_ne]; exact (h (k + 1)).2
      have hrec := ih (k + 1) (by omega)
      simp [hle, hall, hmem, hnr, hrec.1, hrec.2]
      omega

/-- The running loop as called by `start`. -/
theorem statusLoop_allowedNotRunning (taskArn : String)
    (g : Nat → DescribeTasksResponse) (maxPolls : Nat)
    (h : ∀ n, ALLOWED_STATUSES.contains (getTaskStatus (g n)) = true ∧
      getTaskStatus (g n) ≠ "RUNNING") :
    (statusLoop taskArn g maxPolls 0).1 = .error (timeoutRunningMsg taskArn) ∧
    (statusLoop taskArn g maxPolls 0).2.1 = maxPolls - 1 :=
  statusLoopFuel_allowedNotRunning taskArn g maxPolls h (maxPolls - 0) 0 (Nat.le_refl _)

/-- Peel the first element off a map over `List.range (c + 1)`. -/
theorem map_range_succ_shift {β : Type} (gf : Nat → β) (c : Nat) :
    (List.range (c + 1)).map gf = gf 0 :: (List.range c).map (fun i => gf (i + 1)) := by
  rw [List.range_succ_eq_map, List.map_cons, List.map_map]
  rfl

/-- A successful network loop makes between 1 and `maxPolls - 1` polls and
writes exactly the events `1 + attempt/maxPolls`, one per poll. -/
theorem ipLoopFuel_ok (taskArn : String) (f : Nat → DescribeTasksResponse)
    (maxPolls : Nat) :
    ∀ fuel numPolls ip, (ipLoopFuel taskArn f maxPolls fuel numPolls).1 = .ok ip →
      ∃ c, ipLoopFuel taskArn f maxPolls fuel numPolls =
          (.ok ip, c, (List.range c).map (fun i =>
            ⟨1 + ((numPolls + i + 1 : Nat) : ℚ) / (maxPolls : ℚ), none⟩)) ∧
        1 ≤ c ∧ numPolls + c + 1 ≤ maxPolls := by
  intro fuel
  induction fuel with
  | zero =>
    intro k ip hok
    rw [ipLoopFuel] at hok
    by_cases hle : maxPolls ≤ k + 1 <;> simp [hle] at hok
  | succ m ih =>
    intro k ip hok
    rw [ipLoopFuel] at hok ⊢
    by_cases hip : getTaskIp (f (k + 1)) = ""
    · have hcond : (getTaskIp (f (k + 1)) == "") = true := by
        rw [beq_iff_eq]; exact hip
      by_cases hle : maxPolls ≤ k + 1
      · simp [hle] at hok
      · simp only [hle, if_false, hcond, eq_self_iff_true, if_true] at hok ⊢
        obtain ⟨c, hc, hc1, hc2⟩ := ih (k + 1) ip hok
        refine ⟨c + 1, ?_, by omega, by omega⟩
        rw [hc]
        dsimp only
        rw [map_range_succ_shift]
        simp only [Prod.mk.injEq, List.cons.injEq]
        refine ⟨trivial, trivial, trivial, ?_⟩
        apply List.map_congr_left
        intro i _
        have harith : k + (i + 1) + 1 = k + 1 + i + 1 := by omega
        rw [harith]
    · have hcond : (getTaskIp (f (k + 1)) == "") = false := by
        rw [beq_eq_false_iff_ne]; exact hip
      by_cases hle : maxPolls ≤ k + 1
      · simp [hle] at hok
      · simp only [hle, if_false, hcond, Bool.false_eq_true] at hok ⊢
        refine ⟨1, ?_, by omega, by omega⟩
        rw [map_range_succ_shift]
        simp [hok]

/-- A successful running loop makes between 1 and `maxPolls - 1` polls and
writes exactly the events `2 + attempt/maxPolls * 98`, one per poll. -/
theorem statusLoopFuel_ok (taskArn : String) (g : Nat → DescribeTasksResponse)
    (maxPolls : Nat) :
    ∀ fuel numPolls, (statusLoopFuel taskArn g maxPolls fuel numPolls).1 = .ok () →
      ∃ c, statusLoopFuel taskArn g maxPolls fuel numPolls =
          (.ok (), c, (List.range c).map (fun i =>
            ⟨2 + ((numPolls + i + 1 : Nat) : ℚ) / (maxPolls : ℚ) * 98, none⟩)) ∧
        1 ≤ c ∧ numPolls + c + 1 ≤ maxPolls := by
  intro fuel
  induction fuel with
  | zero =>
    intro k hok
    rw [statusLoopFuel] at hok
    by_cases hle : maxPolls ≤ k + 1 <;> simp [hle] at hok
  | succ m ih =>
    intro k hok
    rw [statusLoopFuel] at hok ⊢
    by_cases hle : maxPolls ≤ k + 1
    · simp [hle] at hok
    · by_cases hall : ALLOWED_STATUSES.contains (getTaskStatus (g (k + 1))) = false
      · have hnotmem : ¬ (getTaskStatus (g (k + 1)) ∈ ALLOWED_STATUSES) := by
          intro hm
          have hmc := (allowedContainsIff _).mpr hm
          rw [hall] at hmc
          exact Bool.false_ne_true hmc
        simp [hle, hnotmem] at hok
      · have hall2 : ALLOWED_STATUSES.contains (getTaskStatus (g (k + 1))) = true := by
          revert hall; cases ALLOWED_STATUSES.contains (getTaskStatus (g (k + 1))) <;> simp
        by_cases hrun : getTaskStatus (g (k + 1)) = "RUNNING"
        · have hrunT : (getTaskStatus (g (k + 1)) == "RUNNING") = true := by
            rw [beq_iff_eq]; exact hrun
          simp only [hle, if_false, hall2, Bool.true_eq_false, hrunT,
            eq_self_iff_true, if_true] at hok ⊢
          refine ⟨1, ?_, by omega, by omega⟩
          rw [map_range_succ_shift]
          simp
        · have hrunF : (getTaskStatus (g (k + 1)) == "RUNNING") = false := by
            rw [beq_eq_false_iff_ne]; exact hrun
          simp only [hle, if_false, hall2, Bool.true_eq_false, hrunF,
            Bool.false_eq_true] at hok ⊢
          obtain ⟨c, hc, hc1, hc2⟩ := ih (k + 1) hok
          refine ⟨c + 1, ?_, by omega, by omega⟩
          rw [hc]
          dsimp only
          rw [map_range_succ_shift]
          simp only [Prod.mk.injEq, List.cons.injEq]
          refine ⟨trivial, trivial, trivial, ?_⟩
          apply List.map_congr_left
          intro i _
          have harith : k + (i + 1) + 1 = k + 1 + i + 1 := by omega
          rw [harith]

/-! ## Claim C3: the progress broadcaster replays the full history -/

/-- C3: for every sequence of `write` calls followed by `close()`, every
subscriber (each starts at cursor 0, whenever it subscribed) iterates the
complete event history in write order and terminates cleanly exactly at the
end-marker that `close()` put at index `ws.length`; before `close()` it
suspends instead of terminating. -/
theorem progressBufferReplaysAll {α : Type} (ws : List α) :
    (bufferClose (ws.foldl bufferWrite bufferInit)).futures =
      ws.map BufferSlot.item ++ [BufferSlot.stopMarker] ∧
    subscriberView (bufferClose (ws.foldl bufferWrite bufferInit)) = some ws ∧
    subscriberView (ws.foldl bufferWrite bufferInit) = none := by
  have hw : (ws.foldl bufferWrite bufferInit).futures =
      ws.map BufferSlot.item ++ [BufferSlot.pending] := by
    simpa [bufferInit] using bufferWrites_futures ws ([] : List (BufferSlot α))
  have hc : (bufferClose (ws.foldl bufferWrite bufferInit)).futures =
      ws.map BufferSlot.item ++ [BufferSlot.stopMarker] := by
    simp [bufferClose, hw, List.dropLast_concat]
  refine ⟨hc, ?_, ?_⟩
  · simp [subscriberView, hc, drainSlots_items]
  · simp [subscriberView, hw, drainSlots_pending]

/-! ## Claim C4: `poll` return values -/

/-- C4: `poll()` returns `None` whenever the in-flight flag is set; otherwise
`0` exactly when `task_arn` is empty; otherwise `None` exactly when the
remote status is in the allowed set and `1` exactly when it is outside it;
and `"STOPPED"` is outside the allowed set. -/
theorem pollReturnValues (c : Bool) (arn : String) (resp : DescribeTasksResponse) :
    (c = true → pollModel c arn resp = none) ∧
    (c = false → (pollModel c arn resp = some 0 ↔ arn = "")) ∧
    (c = false → arn ≠ "" →
      ((pollModel c arn resp = none ↔ getTaskStatus resp ∈ ALLOWED_STATUSES) ∧
       (pollModel c arn resp = some 1 ↔ getTaskStatus resp ∉ ALLOWED_STATUSES))) ∧
    "STOPPED" ∉ ALLOWED_STATUSES := by
  have hcontains : ∀ s, ALLOWED_STATUSES.contains s = true ∨
      ALLOWED_STATUSES.contains s = false := by
    intro s
    cases ALLOWED_STATUSES.contains s
    · exact Or.inr rfl
    · exact Or.inl rfl
  refine ⟨?_, ?_, ?_, by decide⟩
  · intro hc
    simp [pollModel, hc]
  · intro hc
    by_cases ha : arn = ""
    · simp [pollModel, hc, ha]
    · have ha2 : (arn == "") = false := by rw [beq_eq_false_iff_ne]; exact ha
      rcases hcontains (getTaskStatus resp) with hm | hm <;>
        simp [pollModel, hc, ha2, hm, ha]
  · intro hc ha
    have ha2 : (arn == "") = false := by rw [beq_eq_false_iff_ne]; exact ha
    rcases hcontains (getTaskStatus resp) with hm | hm
    · have hmem := (allowedContainsIff _).mp hm
      simp [pollModel, hc, ha2, hm, hmem]
    · have hmem : ¬ (getTaskStatus resp ∈ ALLOWED_STATUSES) := by
        intro hx
        have hxc := (allowedContainsIff _).mpr hx
        rw [hm] at hxc
        exact Bool.false_ne_true hxc
      simp [pollModel, hc, ha2, hm, hmem]

/-- Witness for C4 at a concrete stopped task. -/
theorem pollReturnValues_witness :
    (false = true → pollModel false "arn-w" ⟨none, some ⟨"STOPPED", none⟩⟩ = none) ∧
    (false = false →
      (pollModel false "arn-w" ⟨none, some ⟨"STOPPED", none⟩⟩ = some 0 ↔ "arn-w" = "")) ∧
    (false = false → "arn-w" ≠ "" →
      ((pollModel false "arn-w" ⟨none, some ⟨"STOPPED", none⟩⟩ = none ↔
        getTaskStatus ⟨none, some ⟨"STOPPED", none⟩⟩ ∈ ALLOWED_STATUSES) ∧
       (pollModel false "arn-w" ⟨none, some ⟨"STOPPED", none⟩⟩ = some 1 ↔
        getTaskStatus ⟨none, some ⟨"STOPPED", none⟩⟩ ∉ ALLOWED_STATUSES))) ∧
    "STOPPED" ∉ ALLOWED_STATUSES :=
  pollReturnValues false "arn-w" ⟨none, some ⟨"STOPPED", none⟩⟩

/-! ## Claim C5: `stop` semantics -/

/-- C5: `stop()` with an empty `task_arn` returns at once with no StopTask
call; with a non-empty `task_arn` it issues exactly one StopTask call,
swallows an error body containing `task was not found`, and propagates any
other error body. -/
theorem stopSwallowsOnlyNotFound (arn : String) (resp : StopTaskResult) (body : String)
    (h : arn ≠ "") :
    stopModel "" resp = (.ok (), 0) ∧
    stopModel arn .success = (.ok (), 1) ∧
    (stopModel arn (.httpError body)).2 = 1 ∧
    stopModel arn (.httpError body) =
      ((if containsSub "task was not found" body then .ok () else .error body), 1) := by
  have h2 : (arn == "") = false := by rw [beq_eq_false_iff_ne]; exact h
  refine ⟨by simp [stopModel], ?_, ?_, ?_⟩
  · simp [stopModel, h2, ensureStoppedTask]
  · simp [stopModel, h2]
  · simp [stopModel, h2, ensureStoppedTask]

/-- Witness for C5 at a concrete task ARN and error body. -/
theorem stopSwallowsOnlyNotFound_witness :
    stopModel "" .success = (.ok (), 0) ∧
    stopModel "arn-w" .success = (.ok (), 1) ∧
    (stopModel "arn-w" (.httpError "the task was not found.")).2 = 1 ∧
    stopModel "arn-w" (.httpError "the task was not found.") =
      ((if containsSub "task was not found" "the task was not found." then .ok ()
        else .error "the task was not found."), 1) :=
  stopSwallowsOnlyNotFound "arn-w" .success "the task was not found." (by decide)

/-! ## Claim C7: the auto-refreshing credential provider -/

/-- C7: while `now` is not after the stored expiry, `get_credentials`
performs no fetch, leaves the cached state untouched, and returns the cached
value; once `now` is after the expiry (as it always is for the initial
sentinel state, whose expiry is the year-1900 sentinel), exactly one fetch
occurs and the cached state is replaced by the fetched body before it is
returned. -/
theorem credentialRefreshOnExpiry (auth : EcsRoleAuthState) (nowEarly nowLate : PyDatetime)
    (fetched : FetchedCreds)
    (hEarly : dtLt auth.expiration nowEarly = false)
    (hLate : dtLt auth.expiration nowLate = true) :
    getCredentialsModel auth nowEarly fetched =
      (⟨auth.accessKeyId, auth.secretAccessKey, auth.preAuthHeaders⟩, auth, 0) ∧
    getCredentialsModel auth nowLate fetched =
      (⟨fetched.accessKeyId, fetched.secretAccessKey,
          [("x-amz-security-token", fetched.token)]⟩,
       ⟨fetched.accessKeyId, fetched.secretAccessKey,
          [("x-amz-security-token", fetched.token)], fetched.expiration⟩, 1) ∧
    ecsRoleAuthInit.expiration = dtSentinel := by
  refine ⟨?_, ?_, rfl⟩
  · simp [getCredentialsModel, hEarly]
  · simp [getCredentialsModel, hLate]

/-- Witness for C7: the initial sentinel state, a clock before and one after
the (sentinel) expiry. -/
theorem credentialRefreshOnExpiry_witness :
    getCredentialsModel ecsRoleAuthInit ⟨1899, 12, 31, 23, 59, 59⟩ ⟨"AK", "SK", "TOK", ⟨2020, 1, 2, 0, 0, 0⟩⟩ =
      (⟨ecsRoleAuthInit.accessKeyId, ecsRoleAuthInit.secretAccessKey,
          ecsRoleAuthInit.preAuthHeaders⟩, ecsRoleAuthInit, 0) ∧
    getCredentialsModel ecsRoleAuthInit ⟨2020, 1, 1, 0, 0, 0⟩ ⟨"AK", "SK", "TOK", ⟨2020, 1, 2, 0, 0, 0⟩⟩ =
      (⟨"AK", "SK", [("x-amz-security-token", "TOK")]⟩,
       ⟨"AK", "SK", [("x-amz-security-token", "TOK")], ⟨2020, 1, 2, 0, 0, 0⟩⟩, 1) ∧
    ecsRoleAuthInit.expiration = dtSentinel :=
  credentialRefreshOnExpiry ecsRoleAuthInit ⟨1899, 12, 31, 23, 59, 59⟩ ⟨2020, 1, 1, 0, 0, 0⟩
    ⟨"AK", "SK", "TOK", ⟨2020, 1, 2, 0, 0, 0⟩⟩ (by decide) (by decide)

/-! ## Claim C8: DescribeTasks response shapes -/

/-- C8: the describe/status helpers accept the plural-keyed, singular-keyed,
and absent response shapes without error; an absent task yields status `""`,
which is in the allowed set, so `poll()` reports still-starting and the
running-phase polling loop keeps polling (failing only by timeout, never
with the disallowed-status error). -/
theorem describeTaskResponseShapes (t : EcsTask) (ts : List EcsTask)
    (other : Option EcsTask) (arn : String) (maxPolls : Nat) (h : arn ≠ "") :
    describeTask ⟨some (t :: ts), other⟩ = some t ∧
    describeTask ⟨none, some t⟩ = some t ∧
    describeTask ⟨some [], some t⟩ = some t ∧
    describeTask ⟨none, none⟩ = none ∧
    describeTask ⟨some [], none⟩ = none ∧
    getTaskStatus ⟨none, none⟩ = "" ∧
    "" ∈ ALLOWED_STATUSES ∧
    getTaskIp ⟨none, none⟩ = "" ∧
    pollModel false arn ⟨none, none⟩ = none ∧
    (statusLoop arn (fun _ => ⟨none, none⟩) maxPolls 0).1 =
      .error (timeoutRunningMsg arn) := by
  have ha2 : (arn == "") = false := by rw [beq_eq_false_iff_ne]; exact h
  refine ⟨rfl, rfl, rfl, rfl, rfl, rfl, by decide, rfl, ?_, ?_⟩
  · simp [pollModel, ha2, getTaskStatus, describeTask, ALLOWED_STATUSES]
  · exact (statusLoop_allowedNotRunning arn (fun _ => ⟨none, none⟩) maxPolls
      (fun n => ⟨rfl, by intro hx; simp [getTaskStatus, describeTask] at hx⟩)).1

/-- Witness for C8 at a concrete task object and retry bound. -/
theorem describeTaskResponseShapes_witness :
    describeTask ⟨some (⟨"PENDING", none⟩ :: []), none⟩ = some ⟨"PENDING", none⟩ ∧
    describeTask ⟨none, some ⟨"PENDING", none⟩⟩ = some ⟨"PENDING", none⟩ ∧
    describeTask ⟨some [], some ⟨"PENDING", none⟩⟩ = some ⟨"PENDING", none⟩ ∧
    describeTask ⟨none, none⟩ = none ∧
    describeTask ⟨some [], none⟩ = none ∧
    getTaskStatus ⟨none, none⟩ = "" ∧
    "" ∈ ALLOWED_STATUSES ∧
    getTaskIp ⟨none, none⟩ = "" ∧
    pollModel false "arn-w8" ⟨none, none⟩ = none ∧
    (statusLoop "arn-w8" (fun _ => ⟨none, none⟩) 3 0).1 =
      .error (timeoutRunningMsg "arn-w8") :=
  describeTaskResponseShapes ⟨"PENDING", none⟩ [] none "arn-w8" 3 (by decide)

/-! ## Claim C10: the in-flight flag is reset on every exit of `start` -/

/-- C10: on every exit of `start` — RunTask succeeding or raising, either
polling loop failing, or the run completing — the `calling_run_task` flag is
false in the final state, because it is reset in the `finally` block. -/
theorem callingRunTaskFalseAfterStart (beh : EcsApiBehavior) (cfg : StartConfig)
    (st : SpawnerState) :
    (startModel beh cfg st).state.callingRunTask = false := by
  cases hr : beh.runTaskArn with
  | none => simp [startModel, hr]
  | some arn =>
    cases hip : (ipLoop arn beh.ipResp 50 0).1 with
    | error msg => simp [startModel, hr, hip]
    | ok ip =>
      cases hst : (statusLoop arn beh.statusResp cfg.startTimeout 0).1 with
      | error msg => simp [startModel, hr, hip, hst]
      | ok u => simp [startModel, hr, hip, hst]

/-! ## Claim C1: the signer refines the spec algorithm -/

/-- C1 (amended): the signer returns exactly the pre-auth headers plus
`x-amz-date`, `x-amz-content-sha256` (hex SHA-256 of the body), and the
`Authorization` header built from the spec's canonical request, credential
scope, four-step chained signing key, and signature — with the method
entering the canonical request verbatim (the source never uppercases it;
its only caller passes `POST`, already uppercase). -/
theorem awsHeadersMatchesSpec
    (service accessKeyId secretAccessKey region host method path : String)
    (query preAuthHeaders : PyDict) (payload : List Nat) (now : PyDatetime) :
    awsHeaders service accessKeyId secretAccessKey region host method path
      query preAuthHeaders payload now =
    specAwsHeadersCore service accessKeyId secretAccessKey region host method path
      query preAuthHeaders payload now := rfl

set_option maxRecDepth 40000 in
set_option maxHeartbeats 20000000 in
/-- C1 counterexample: for a lowercase method the claim's uppercased-method
canonical request yields a different signature than the source, which uses
the method verbatim. -/
theorem awsHeadersUppercaseCounterexample :
    awsHeaders "s" "" "" "r" "h" "post" "/" [] [] [] ⟨1970, 1, 1, 0, 0, 0⟩ ≠
    specAwsHeaders "s" "" "" "r" "h" "post" "/" [] [] [] ⟨1970, 1, 1, 0, 0, 0⟩ := by
  decide

/-! ## Claim C9: determinism of the signer -/

/-- C9 (amended): the signer is a pure function of exactly its inputs — the
credentials, method, path, query, pre-auth headers, body, and clock value,
together with the service, region, and host: two runs agreeing on all of
them produce identical header mappings. -/
theorem awsHeadersDeterministic
    (s1 s2 ak1 ak2 sk1 sk2 r1 r2 ho1 ho2 me1 me2 pa1 pa2 : String)
    (q1 q2 ph1 ph2 : PyDict) (b1 b2 : List Nat) (t1 t2 : PyDatetime)
    (hs : s1 = s2) (hak : ak1 = ak2) (hsk : sk1 = sk2) (hr : r1 = r2)
    (hho : ho1 = ho2) (hme : me1 = me2) (hpa : pa1 = pa2) (hq : q1 = q2)
    (hph : ph1 = ph2) (hb : b1 = b2) (ht : t1 = t2) :
    awsHeaders s1 ak1 sk1 r1 ho1 me1 pa1 q1 ph1 b1 t1 =
    awsHeaders s2 ak2 sk2 r2 ho2 me2 pa2 q2 ph2 b2 t2 := by
  subst hs hak hsk hr hho hme hpa hq hph hb ht
  rfl

/-- Witness for C9 at one concrete input tuple. -/
theorem awsHeadersDeterministic_witness :
    awsHeaders "ecs" "AK" "SK" "r" "h" "POST" "/" [] [] [] ⟨2020, 1, 1, 0, 0, 0⟩ =
    awsHeaders "ecs" "AK" "SK" "r" "h" "POST" "/" [] [] [] ⟨2020, 1, 1, 0, 0, 0⟩ :=
  awsHeadersDeterministic "ecs" "ecs" "AK" "AK" "SK" "SK" "r" "r" "h" "h" "POST" "POST"
    "/" "/" [] [] [] [] [] [] ⟨2020, 1, 1, 0, 0, 0⟩ ⟨2020, 1, 1, 0, 0, 0⟩
    rfl rfl rfl rfl rfl rfl rfl rfl rfl rfl rfl

set_option maxRecDepth 40000 in
set_option maxHeartbeats 2000000 in
/-- C9 counterexample: two runs agreeing on every input the claim lists —
credentials, method, path, query, headers, body, clock — but differing in
the region parameter produce different headers, so the output does depend
on an input outside the claim's list. -/
theorem awsHeadersRegionDependence :
    awsHeaders "s" "" "" "us-east-1" "h" "POST" "/" [] [] [] ⟨1970, 1, 1, 0, 0, 0⟩ ≠
    awsHeaders "s" "" "" "eu-west-1" "h" "POST" "/" [] [] [] ⟨1970, 1, 1, 0, 0, 0⟩ := by
  decide

/-! ## Claim C2: the timeout retry bounds -/

/-- C2 (amended): with retry bound `N` (50 for the network phase,
`start_timeout` for the running phase), if every poll returns no IP
(respectively an allowed but non-`RUNNING` status), the loop raises the
Timeout error naming the task id after exactly `N - 1` polls — the counter
reaches the bound before the `N`-th poll is issued — and `start()`
propagates that error after 49 network polls. -/
theorem startTimeoutAfterBoundLessOne
    (arn : String) (f g : Nat → DescribeTasksResponse) (maxPolls : Nat)
    (cfg : StartConfig) (st : SpawnerState)
    (hf : ∀ n, getTaskIp (f n) = "")
    (hg : ∀ n, ALLOWED_STATUSES.contains (getTaskStatus (g n)) = true ∧
      getTaskStatus (g n) ≠ "RUNNING") :
    ((ipLoop arn f maxPolls 0).1 = .error (timeoutIpMsg arn) ∧
      (ipLoop arn f maxPolls 0).2.1 = maxPolls - 1) ∧
    ((statusLoop arn g maxPolls 0).1 = .error (timeoutRunningMsg arn) ∧
      (statusLoop arn g maxPolls 0).2.1 = maxPolls - 1) ∧
    ((startModel ⟨some arn, f, g⟩ cfg st).result = .error (timeoutIpMsg arn) ∧
      (startModel ⟨some arn, f, g⟩ cfg st).ipPolls = 49) := by
  refine ⟨ipLoop_allEmpty arn f maxPolls hf,
    statusLoop_allowedNotRunning arn g maxPolls hg, ?_, ?_⟩
  · have h1 := (ipLoop_allEmpty arn f 50 hf).1
    simp only [startModel]
    rw [h1]
  · have h1 := (ipLoop_allEmpty arn f 50 hf).1
    have h2 := (ipLoop_allEmpty arn f 50 hf).2
    simp only [startModel]
    rw [h1]
    exact h2

/-- Witness for C2: a concrete API that never attaches an IP and never
reaches `RUNNING`, with bound 5. -/
theorem startTimeoutAfterBoundLessOne_witness :
    ((ipLoop "arn-w2" (fun _ => ⟨none, none⟩) 5 0).1 = .error (timeoutIpMsg "arn-w2") ∧
      (ipLoop "arn-w2" (fun _ => ⟨none, none⟩) 5 0).2.1 = 5 - 1) ∧
    ((statusLoop "arn-w2" (fun _ => ⟨none, some ⟨"PENDING", none⟩⟩) 5 0).1 =
        .error (timeoutRunningMsg "arn-w2") ∧
      (statusLoop "arn-w2" (fun _ => ⟨none, some ⟨"PENDING", none⟩⟩) 5 0).2.1 = 5 - 1) ∧
    ((startModel ⟨some "arn-w2", fun _ => ⟨none, none⟩,
        fun _ => ⟨none, some ⟨"PENDING", none⟩⟩⟩ ⟨5, "http", 80⟩
        ⟨"", false, [], false⟩).result = .error (timeoutIpMsg "arn-w2") ∧
      (startModel ⟨some "arn-w2", fun _ => ⟨none, none⟩,
        fun _ => ⟨none, some ⟨"PENDING", none⟩⟩⟩ ⟨5, "http", 80⟩
        ⟨"", false, [], false⟩).ipPolls = 49) :=
  startTimeoutAfterBoundLessOne "arn-w2" (fun _ => ⟨none, none⟩)
    (fun _ => ⟨none, some ⟨"PENDING", none⟩⟩) 5 ⟨5, "http", 80⟩ ⟨"", false, [], false⟩
    (fun _ => rfl)
    (fun _ => ⟨rfl, by intro hx; simp [getTaskStatus, describeTask] at hx⟩)

set_option maxRecDepth 40000 in
set_option maxHeartbeats 4000000 in
/-- C2 counterexample: with the network-phase bound `N = 50` and an API that
never returns an IP, `start()` raises the Timeout error after 49 polls, not
after `N = 50` as the claim states. -/
theorem startTimeoutClaimCounterexample :
    (startModel ⟨some "arn-0", fun _ => ⟨none, none⟩, fun _ => ⟨none, none⟩⟩
        ⟨5, "http", 80⟩ ⟨"", false, [], false⟩).result = .error (timeoutIpMsg "arn-0") ∧
    (startModel ⟨some "arn-0", fun _ => ⟨none, none⟩, fun _ => ⟨none, none⟩⟩
        ⟨5, "http", 80⟩ ⟨"", false, [], false⟩).ipPolls = 49 ∧
    ¬ ((startModel ⟨some "arn-0", fun _ => ⟨none, none⟩, fun _ => ⟨none, none⟩⟩
        ⟨5, "http", 80⟩ ⟨"", false, [], false⟩).ipPolls = 50) := by
  refine ⟨?_, ?_, ?_⟩ <;> decide

/-! ## Claim C6: the progress trace of a successful `start` -/

/-- The network loop as called by `start` (bound 50, counter from 0), on
success: between 1 and 49 polls, events `1 + attempt/50`. -/
theorem ipLoop_ok (taskArn : String) (f : Nat → DescribeTasksResponse) (ip : String)
    (h : (ipLoop taskArn f 50 0).1 = .ok ip) :
    ∃ c, ipLoop taskArn f 50 0 =
        (.ok ip, c, (List.range c).map (fun i =>
          ⟨1 + ((i + 1 : Nat) : ℚ) / 50, none⟩)) ∧
      1 ≤ c ∧ c ≤ 49 := by
  obtain ⟨c, hc, h1, h2⟩ := ipLoopFuel_ok taskArn f 50 (50 - 0) 0 ip h
  refine ⟨c, ?_, h1, by omega⟩
  show ipLoopFuel taskArn f 50 (50 - 0) 0 = _
  rw [hc]
  simp only [Nat.zero_add, Nat.cast_ofNat]

/-- The running loop as called by `start` (bound `T`, counter from 0), on
success: between 1 and `T - 1` polls, events `2 + attempt/T * 98`. -/
theorem statusLoop_ok (taskArn : String) (g : Nat → DescribeTasksResponse) (T : Nat)
    (h : (statusLoop taskArn g T 0).1 = .ok ()) :
    ∃ c, statusLoop taskArn g T 0 =
        (.ok (), c, (List.range c).map (fun i =>
          ⟨2 + ((i + 1 : Nat) : ℚ) / (T : ℚ) * 98, none⟩)) ∧
      1 ≤ c ∧ c + 1 ≤ T := by
  obtain ⟨c, hc, h1, h2⟩ := statusLoopFuel_ok taskArn g T (T - 0) 0 h
  refine ⟨c, ?_, h1, by omega⟩
  show statusLoopFuel taskArn g T (T - 0) 0 = _
  rw [hc]
  simp only [Nat.zero_add]

/-- Appending two non-decreasing event lists separated by a bound stays
non-decreasing. -/
theorem pairwise_le_append_bound (l1 l2 : List ProgressEvent) (b : ℚ)
    (h1 : l1.Pairwise (fun a c => a.progress ≤ c.progress))
    (h2 : l2.Pairwise (fun a c => a.progress ≤ c.progress))
    (hb1 : ∀ x ∈ l1, x.progress ≤ b) (hb2 : ∀ y ∈ l2, b ≤ y.progress) :
    (l1 ++ l2).Pairwise (fun a c => a.progress ≤ c.progress) := by
  rw [List.pairwise_append]
  exact ⟨h1, h2, fun x hx y hy => le_trans (hb1 x hx) (hb2 y hy)⟩

/-- A map of a monotone progress formula over `List.range` is
non-decreasing. -/
theorem pairwise_progress_map_range (fq : Nat → ℚ) (K : Nat)
    (hmono : ∀ i j, i ≤ j → fq i ≤ fq j) :
    ((List.range K).map (fun i => (⟨fq i, none⟩ : ProgressEvent))).Pairwise
      (fun a c => a.progress ≤ c.progress) := by
  rw [List.pairwise_map]
  exact (List.pairwise_lt_range K).imp (fun hab => hmono _ _ (le_of_lt hab))

/-- The full progress trace of a successful run is non-decreasing. -/
theorem progressTracePairwise (K M T : Nat) (hK : K ≤ 49) (hM : M + 1 ≤ T) :
    ([(⟨1/2, some "Starting server..."⟩ : ProgressEvent), ⟨1, none⟩] ++
     (List.range K).map (fun i => (⟨1 + ((i + 1 : Nat) : ℚ) / 50, none⟩ : ProgressEvent)) ++
     [(⟨2, none⟩ : ProgressEvent)] ++
     (List.range M).map (fun i =>
       (⟨2 + ((i + 1 : Nat) : ℚ) / (T : ℚ) * 98, none⟩ : ProgressEvent)) ++
     [(⟨100, some "Server started"⟩ : ProgressEvent)]).Pairwise
      (fun a c => a.progress ≤ c.progress) := by
  have hAmem : ∀ x ∈ (List.range K).map (fun i =>
      (⟨1 + ((i + 1 : Nat) : ℚ) / 50, none⟩ : ProgressEvent)),
      1 ≤ x.progress ∧ x.progress ≤ 2 := by
    intro x hx
    rw [List.mem_map] at hx
    obtain ⟨i, hi, rfl⟩ := hx
    rw [List.mem_range] at hi
    constructor
    · have hpos : (0 : ℚ) ≤ ((i + 1 : Nat) : ℚ) / 50 := by positivity
      dsimp
      linarith
    · have hle : ((i + 1 : Nat) : ℚ) ≤ 50 := by
        exact_mod_cast (by omega : i + 1 ≤ 50)
      have hdiv : ((i + 1 : Nat) : ℚ) / 50 ≤ 1 := by
        rw [div_le_one (by norm_num : (0 : ℚ) < 50)]
        exact hle
      dsimp
      linarith
  have hBmem : ∀ x ∈ (List.range M).map (fun i =>
      (⟨2 + ((i + 1 : Nat) : ℚ) / (T : ℚ) * 98, none⟩ : ProgressEvent)),
      2 ≤ x.progress ∧ x.progress ≤ 100 := by
    intro x hx
    rw [List.mem_map] at hx
    obtain ⟨i, hi, rfl⟩ := hx
    rw [List.mem_range] at hi
    have hTpos : (0 : ℚ) < (T : ℚ) := by
      exact_mod_cast (by omega : 0 < T)
    constructor
    · have hpos : (0 : ℚ) ≤ ((i + 1 : Nat) : ℚ) / (T : ℚ) * 98 := by positivity
      dsimp
      linarith
    · have hle : ((i + 1 : Nat) : ℚ) ≤ (T : ℚ) := by
        exact_mod_cast (by omega : i + 1 ≤ T)
      have hdiv : ((i + 1 : Nat) : ℚ) / (T : ℚ) ≤ 1 := by
        rw [div_le_one hTpos]
        exact hle
      have hmul : ((i + 1 : Nat) : ℚ) / (T : ℚ) * 98 ≤ 98 := by
        calc ((i + 1 : Nat) : ℚ) / (T : ℚ) * 98 ≤ 1 * 98 :=
          mul_le_mul_of_nonneg_right hdiv (by norm_num)
        _ = 98 := by norm_num
      dsimp
      linarith
  have hApw : ((List.range K).map (fun i =>
      (⟨1 + ((i + 1 : Nat) : ℚ) / 50, none⟩ : ProgressEvent))).Pairwise
      (fun a c => a.progress ≤ c.progress) := by
    apply pairwise_progress_map_range
    intro i j hij
    gcongr
  have hBpw : ((List.range M).map (fun i =>
      (⟨2 + ((i + 1 : Nat) : ℚ) / (T : ℚ) * 98, none⟩ : ProgressEvent))).Pairwise
      (fun a c => a.progress ≤ c.progress) := by
    apply pairwise_progress_map_range
    intro i j hij
    gcongr
  simp only [List.append_assoc]
  refine pairwise_le_append_bound _ _ 1 ?_ ?_ ?_ ?_
  · simp [List.pairwise_cons]
    norm_num
  · refine pairwise_le_append_bound _ _ 2 hApw ?_ (fun x hx => (hAmem x hx).2) ?_
    · refine pairwise_le_append_bound _ _ 2 (by simp) ?_ (by simp) ?_
      · refine pairwise_le_append_bound _ _ 100 hBpw (by simp)
          (fun x hx => (hBmem x hx).2) ?_
        intro y hy
        simp only [List.mem_singleton] at hy
        subst hy
        norm_num
      · intro y hy
        rw [List.mem_append] at hy
        rcases hy with hy | hy
        · exact (hBmem y hy).1
        · simp only [List.mem_singleton] at hy
          subst hy
          norm_num
    · intro y hy
      simp only [List.cons_append, List.nil_append, List.mem_cons] at hy
      rcases hy with hy | hy
      · subst hy
        norm_num
      · rw [List.mem_append] at hy
        rcases hy with hy | hy
        · linarith [(hBmem y hy).1]
        · simp only [List.mem_singleton] at hy
          subst hy
          norm_num
  · intro x hx
    simp only [List.mem_cons, List.not_mem_nil, or_false] at hx
    rcases hx with hx | hx <;> (subst hx; norm_num)
  · intro y hy
    rw [List.mem_append] at hy
    rcases hy with hy | hy
    · linarith [(hAmem y hy).1]
    · simp only [List.cons_append, List.nil_append, List.mem_cons] at hy
      rcases hy with hy | hy
      · subst hy
        norm_num
      · rw [List.mem_append] at hy
        rcases hy with hy | hy
        · linarith [(hBmem y hy).1]
        · simp only [List.mem_singleton] at hy
          subst hy
          norm_num

/-- C6: on every successful run of `start` (from the fresh progress buffer
that `clear_state` installs), the written progress values form a
non-decreasing sequence; the network-wait events are exactly
`1 + attempt/50` for attempts `1..K` (`K ≤ 49`, so at most one point above
the initial 1), the running-wait events are exactly
`2 + attempt/start_timeout * 98` for attempts `1..M`, and the trace ends
with a 100 event carrying the completion message, after which the stream is
closed. -/
theorem startProgressTrace (beh : EcsApiBehavior) (cfg : StartConfig) (st : SpawnerState)
    (hfresh : st.progress = [])
    (hok : (startModel beh cfg st).result.isOk = true) :
    ∃ K M, 1 ≤ K ∧ K ≤ 49 ∧ 1 ≤ M ∧ M + 1 ≤ cfg.startTimeout ∧
      (startModel beh cfg st).state.progress =
        [(⟨1/2, some "Starting server..."⟩ : ProgressEvent), ⟨1, none⟩] ++
        (List.range K).map (fun i =>
          (⟨1 + ((i + 1 : Nat) : ℚ) / 50, none⟩ : ProgressEvent)) ++
        [(⟨2, none⟩ : ProgressEvent)] ++
        (List.range M).map (fun i =>
          (⟨2 + ((i + 1 : Nat) : ℚ) / (cfg.startTimeout : ℚ) * 98, none⟩ : ProgressEvent)) ++
        [(⟨100, some "Server started"⟩ : ProgressEvent)] ∧
      (startModel beh cfg st).state.progressClosed = true ∧
      (startModel beh cfg st).state.progress.Pairwise
        (fun a c => a.progress ≤ c.progress) := by
  cases hr : beh.runTaskArn with
  | none => simp [startModel, hr, Except.isOk, Except.toBool] at hok
  | some arn =>
    cases hip : (ipLoop arn beh.ipResp 50 0).1 with
    | error msg => simp [startModel, hr, hip, Except.isOk, Except.toBool] at hok
    | ok taskIp =>
      cases hst : (statusLoop arn beh.statusResp cfg.startTimeout 0).1 with
      | error msg => simp [startModel, hr, hip, hst, Except.isOk, Except.toBool] at hok
      | ok u =>
        obtain ⟨K, hKeq, hK1, hK49⟩ := ipLoop_ok arn beh.ipResp taskIp hip
        obtain ⟨M, hMeq, hM1, hMT⟩ :=
          statusLoop_ok arn beh.statusResp cfg.startTimeout (by rw [hst])
        have htrace : (startModel beh cfg st).state.progress =
            [(⟨1/2, some "Starting server..."⟩ : ProgressEvent), ⟨1, none⟩] ++
            (List.range K).map (fun i =>
              (⟨1 + ((i + 1 : Nat) : ℚ) / 50, none⟩ : ProgressEvent)) ++
            [(⟨2, none⟩ : ProgressEvent)] ++
            (List.range M).map (fun i =>
              (⟨2 + ((i + 1 : Nat) : ℚ) / (cfg.startTimeout : ℚ) * 98, none⟩ : ProgressEvent)) ++
            [(⟨100, some "Server started"⟩ : ProgressEvent)] := by
          simp only [startModel, hr]
          rw [hKeq]
          dsimp only
          rw [hMeq]
          dsimp only
          rw [hfresh]
          simp [List.append_assoc]
        have hclosed : (startModel beh cfg st).state.progressClosed = true := by
          simp only [startModel, hr]
          rw [hKeq]
          dsimp only
          rw [hMeq]
        refine ⟨K, M, hK1, hK49, hM1, hMT, htrace, hclosed, ?_⟩
        rw [htrace]
        exact progressTracePairwise K M cfg.startTimeout hK49 hMT

/-- Witness for C6: a concrete API where the IP appears on the first network
poll and the status is `RUNNING` on the first running poll. -/
theorem startProgressTrace_witness :
    ∃ K M, 1 ≤ K ∧ K ≤ 49 ∧ 1 ≤ M ∧
      M + 1 ≤ (⟨5, "http", 8888⟩ : StartConfig).startTimeout ∧
      (startModel ⟨some "arn-w6",
          fun _ => ⟨some [⟨"PENDING", some [⟨[("privateIPv4Address", "10.0.0.9")]⟩]⟩], none⟩,
          fun _ => ⟨none, some ⟨"RUNNING", none⟩⟩⟩ ⟨5, "http", 8888⟩
        ⟨"", false, [], false⟩).state.progress =
        [(⟨1/2, some "Starting server..."⟩ : ProgressEvent), ⟨1, none⟩] ++
        (List.range K).map (fun i =>
          (⟨1 + ((i + 1 : Nat) : ℚ) / 50, none⟩ : ProgressEvent)) ++
        [(⟨2, none⟩ : ProgressEvent)] ++
        (List.range M).map (fun i =>
          (⟨2 + ((i + 1 : Nat) : ℚ) /
            ((⟨5, "http", 8888⟩ : StartConfig).startTimeout : ℚ) * 98, none⟩ : ProgressEvent)) ++
        [(⟨100, some "Server started"⟩ : ProgressEvent)] ∧
      (startModel ⟨some "arn-w6",
          fun _ => ⟨some [⟨"PENDING", some [⟨[("privateIPv4Address", "10.0.0.9")]⟩]⟩], none⟩,
          fun _ => ⟨none, some ⟨"RUNNING", none⟩⟩⟩ ⟨5, "http", 8888⟩
        ⟨"", false, [], false⟩).state.progressClosed = true ∧
      (startModel ⟨some "arn-w6",
          fun _ => ⟨some [⟨"PENDING", some [⟨[("privateIPv4Address", "10.0.0.9")]⟩]⟩], none⟩,
          fun _ => ⟨none, some ⟨"RUNNING", none⟩⟩⟩ ⟨5, "http", 8888⟩
        ⟨"", false, [], false⟩).state.progress.Pairwise
        (fun a c => a.progress ≤ c.progress) :=
  startProgressTrace
    ⟨some "arn-w6",
      fun _ => ⟨some [⟨"PENDING", some [⟨[("privateIPv4Address", "10.0.0.9")]⟩]⟩], none⟩,
      fun _ => ⟨none, some ⟨"RUNNING", none⟩⟩⟩ ⟨5, "http", 8888⟩
    ⟨"", false, [], false⟩ rfl (by decide)
